import Mathlib

/-!
# Verification of the research pipeline core

Shallow embedding of the research pipeline of the `ai-chatbot-smu-tutorial`
repository: the source extractor and streaming orchestrator of
`app/(chat)/api/research/route.ts`, the request schema of
`lib/ai/research/types.ts`, and the client-side reducer
(`useResearchState` / `handleResearchData` / `resetResearch`).

TypeScript types are erased at runtime, so payloads that the client code
casts with `as` are modelled by an untyped payload sum (`RData`); machine
behaviour such as `delta.data !== "complete"` (strict equality of an
arbitrary value against a string) is translated literally.
-/

namespace Research

/-- A source extracted from search results (`ResearchSource` in
`lib/ai/research/types.ts`). -/
structure ResearchSource where
  title : String
  url : String
  domain : String
deriving DecidableEq, Repr

/-- Runtime payload of a research event.  The TypeScript handler receives
`data: unknown`; the values actually sent on the channel are strings
(status phases, rewritten query, search results), source lists, or `null`. -/
inductive RData where
  | str (s : String)
  | srcs (l : List ResearchSource)
  | null
deriving DecidableEq, Repr

/-- One event as seen by the client handler: `{ type: string; data: unknown }`. -/
structure Delta where
  type : String
  data : RData
deriving DecidableEq, Repr

/-- JavaScript strict equality of an arbitrary runtime value against a string
literal: true only when the value is that very string. -/
def dataEqLit (d : RData) (s : String) : Bool :=
  match d with
  | .str t => t == s
  | _ => false

/-- `ResearchState` of `hooks/use-research.ts`.  The fields written from
`delta.data` hold the runtime value unchecked (the TypeScript `as` casts are
erased), hence `RData`. -/
structure ResearchState where
  status : Option RData
  rewrittenQuery : Option RData
  searchResults : Option RData
  sources : RData
  isActive : Bool
deriving DecidableEq, Repr

/-- `initialState` of `hooks/use-research.ts`. -/
def initialState : ResearchState :=
  { status := none
    rewrittenQuery := none
    searchResults := none
    sources := .srcs []
    isActive := false }

/-- `handleResearchData` of `hooks/use-research.ts`: the switch over
`delta.type`, translated branch for branch.  On `data-research-status` it
stores the payload and recomputes `isActive` as
`delta.data !== "complete" && delta.data !== "error"`. -/
def handleResearchData (prev : ResearchState) (delta : Delta) : ResearchState :=
  if delta.type == "data-research-status" then
    { prev with
      status := some delta.data
      isActive := !(dataEqLit delta.data "complete") && !(dataEqLit delta.data "error") }
  else if delta.type == "data-research-query-rewritten" then
    { prev with rewrittenQuery := some delta.data }
  else if delta.type == "data-research-search-results" then
    { prev with searchResults := some delta.data }
  else if delta.type == "data-research-sources" then
    { prev with sources := delta.data }
  else if delta.type == "data-research-complete" then
    { prev with isActive := false }
  else
    prev

/-- `resetResearch` of `hooks/use-research.ts`: `setResearch(initialState)`,
ignoring the previous state. -/
def resetResearch (_prev : ResearchState) : ResearchState := initialState

/-- A delta that touches `isActive`: a `data-research-status` or
`data-research-complete` event (all other branches leave `isActive` alone). -/
def isRelevant (d : Delta) : Bool :=
  d.type == "data-research-status" || d.type == "data-research-complete"

/-- The `isActive` value a relevant delta leaves behind: a status event sets it
to "payload is neither `complete` nor `error`", a complete event to `false`. -/
def isActiveAfter (d : Delta) : Bool :=
  d.type == "data-research-status" &&
    (!(dataEqLit d.data "complete") && !(dataEqLit d.data "error"))

/-- Specification of `isActive` over a whole event history, written from the
spec's words: `isActive` is true iff some status event has been applied, the
last-applied status event carries a value that is neither `complete` nor
`error`, and no `complete` event has been applied since — i.e. the most
recent status-or-complete event exists and is a non-terminal status event. -/
def isActiveSpec (es : List Delta) : Bool :=
  match es.reverse.find? isRelevant with
  | none => false
  | some d => isActiveAfter d

theorem find?_append {α : Type} (p : α → Bool) (l₁ l₂ : List α) :
    (l₁ ++ l₂).find? p =
      match l₁.find? p with
      | some x => some x
      | none => l₂.find? p := by
  induction l₁ with
  | nil => simp
  | cons a l ih =>
    by_cases h : p a = true
    · simp [List.find?, h]
    · simp only [Bool.not_eq_true] at h
      simp [List.find?, h, ih]

theorem handle_isActive (s : ResearchState) (e : Delta) :
    (handleResearchData s e).isActive =
      if isRelevant e then isActiveAfter e else s.isActive := by
  unfold handleResearchData isRelevant isActiveAfter
  by_cases h1 : e.type = "data-research-status"
  · simp [h1]
  · by_cases h5 : e.type = "data-research-complete"
    · simp [h1, h5]
    · by_cases h2 : e.type = "data-research-query-rewritten"
      · simp [h1, h2, h5]
      · by_cases h3 : e.type = "data-research-search-results"
        · simp [h1, h2, h3, h5]
        · by_cases h4 : e.type = "data-research-sources"
          · simp [h1, h2, h3, h4, h5]
          · simp [h1, h2, h3, h4, h5]

theorem foldl_handle_isActive (es : List Delta) (s : ResearchState) :
    (es.foldl handleResearchData s).isActive =
      match es.reverse.find? isRelevant with
      | none => s.isActive
      | some d => isActiveAfter d := by
  induction es generalizing s with
  | nil => simp
  | cons e es ih =>
    simp only [List.foldl_cons, List.reverse_cons]
    rw [ih, find?_append]
    rcases h : es.reverse.find? isRelevant with _ | d
    · simp only [List.find?]
      by_cases hr : isRelevant e = true
      · simp [hr, handle_isActive]
      · simp only [Bool.not_eq_true] at hr
        simp [hr, handle_isActive]
    · rfl

/-! ## Source extractor (`extractSourcesFromContent` in `route.ts`) -/

/-- Match the literal `https?://` at the head of the character list: the
letters `http`, an optional `s`, then `://`; returns the matched scheme text
and the remaining characters. -/
def matchScheme : List Char → Option (String × List Char)
  | 'h' :: 't' :: 't' :: 'p' :: rest =>
    match rest with
    | 's' :: ':' :: '/' :: '/' :: r => some ("https://", r)
    | ':' :: '/' :: '/' :: r => some ("http://", r)
    | _ => none
  | _ => none

/-- Attempt the regex `\[([^\]]+)\]\((https?:\/\/[^)]+)\)` anchored at the head
of the character list.  The character classes `[^\]]+` and `[^)]+` are greedy
runs that cannot cross their closing delimiter, so the match is deterministic:
take the run, then require the delimiter.  Returns `(title, url, rest)` on
success. -/
def matchLinkAt : List Char → Option (String × String × List Char)
  | '[' :: cs =>
    let title := cs.takeWhile (fun c => c ≠ ']')
    if title.isEmpty then none
    else
      match cs.dropWhile (fun c => c ≠ ']') with
      | ']' :: '(' :: ds =>
        match matchScheme ds with
        | some (scheme, es) =>
          let urlRest := es.takeWhile (fun c => c ≠ ')')
          if urlRest.isEmpty then none
          else
            match es.dropWhile (fun c => c ≠ ')') with
            | ')' :: fs => some (String.mk title, scheme ++ String.mk urlRest, fs)
            | _ => none
        | none => none
      | _ => none
  | _ => none

/-- Left-to-right global scan of `matchAll`: at each position try the pattern;
on success record `(title, url)` and resume after the match, on failure
advance one character.  Every step consumes at least one character, so fuel
equal to the input length is enough; it is threaded only to make the
recursion structural. -/
def scanLinksAux : Nat → List Char → List (String × String)
  | 0, _ => []
  | _ + 1, [] => []
  | fuel + 1, c :: cs =>
    match matchLinkAt (c :: cs) with
    | some (t, u, rest) => (t, u) :: scanLinksAux fuel rest
    | none => scanLinksAux fuel cs

/-- All matches of the markdown-link regex in `content`, in text order. -/
def scanLinks (content : String) : List (String × String) :=
  scanLinksAux content.data.length content.data

/-- The `for (const match of matches)` loop of `extractSourcesFromContent`,
with the mutable `seen` set made explicit: a not-yet-seen url is added to
`seen` first, then `new URL(url)` is attempted (`parse`); on parse failure
nothing is pushed (`catch \x7b\x7d` skips the url). -/
def extractLoop (parse : String → Option String) :
    List (String × String) → List String → List ResearchSource
  | [], _ => []
  | (title, url) :: ms, seen =>
    if url ∈ seen then
      extractLoop parse ms seen
    else
      match parse url with
      | some host => ⟨title, url, host⟩ :: extractLoop parse ms (url :: seen)
      | none => extractLoop parse ms (url :: seen)

/-- `extractSourcesFromContent` of `route.ts`, parameterized by the platform
URL parser (`parse url = some hostname` when `new URL(url)` succeeds).  Total
by construction — the TypeScript function never throws. -/
def extractSourcesFromContent (parse : String → Option String)
    (content : String) : List ResearchSource :=
  extractLoop parse (scanLinks content) []

/-- The reference algorithm in the spec's words: for each match attempt to
parse the url, on parse failure skip that match; maintain a set of seen urls
and emit a record only on first sighting, preserving first-seen order. -/
def extractSpecLoop (parse : String → Option String) :
    List (String × String) → List String → List ResearchSource
  | [], _ => []
  | (title, url) :: ms, seen =>
    match parse url with
    | none => extractSpecLoop parse ms seen
    | some host =>
      if url ∈ seen then
        extractSpecLoop parse ms seen
      else
        ⟨title, url, host⟩ :: extractSpecLoop parse ms (url :: seen)

/-- The spec's `extractSources`, over the same scan. -/
def extractSourcesSpec (parse : String → Option String)
    (content : String) : List ResearchSource :=
  extractSpecLoop parse (scanLinks content) []

/-- Modelled from the spec: the route derives `domain` with the platform URL
parser (`new URL(url).hostname`), which is not part of this repository.  For
the `http`/`https` urls the extractor produces, that parser takes the
authority section (up to the first `/`, `?` or `#`), drops userinfo (through
the last `@`) and the port (from the first `:`), lowercases ASCII letters,
and fails when the host is empty or contains a forbidden host character. -/
def urlHostname (url : String) : Option String :=
  match matchScheme url.data with
  | none => none
  | some (_, rest) =>
    let authority := rest.takeWhile (fun c => !(c = '/' || c = '?' || c = '#'))
    let hostport := (authority.reverse.takeWhile (fun c => c ≠ '@')).reverse
    let host := hostport.takeWhile (fun c => c ≠ ':')
    let forbidden : Char → Bool := fun c =>
      c.toNat ≤ 32 || c = '#' || c = '%' || c = '/' || c = '<' || c = '>' ||
      c = '?' || c = '@' || c = '[' || c = '\\' || c = ']' || c = '^' || c = '|'
    if host.isEmpty then none
    else if host.any forbidden then none
    else
      some (String.mk (host.map (fun c =>
        if 'A' ≤ c && c ≤ 'Z' then Char.ofNat (c.toNat + 32) else c)))

theorem extractLoop_eq_specLoop (parse : String → Option String)
    (ms : List (String × String)) (seen₁ seen₂ : List String)
    (hinv : ∀ u, (parse u).isSome → (u ∈ seen₁ ↔ u ∈ seen₂)) :
    extractLoop parse ms seen₁ = extractSpecLoop parse ms seen₂ := by
  induction ms generalizing seen₁ seen₂ with
  | nil => rfl
  | cons m ms ih =>
    obtain ⟨title, url⟩ := m
    rcases hp : parse url with _ | host
    · simp only [extractLoop, extractSpecLoop, hp]
      by_cases hseen : url ∈ seen₁
      · simp only [hseen, if_true]
        exact ih seen₁ seen₂ hinv
      · simp only [hseen, if_false]
        refine ih (url :: seen₁) seen₂ (fun u hu => ?_)
        rw [List.mem_cons]
        constructor
        · rintro (rfl | h)
          · rw [hp] at hu; exact absurd hu (by simp)
          · exact (hinv u hu).mp h
        · intro h
          exact Or.inr ((hinv u hu).mpr h)
    · have hmem : url ∈ seen₁ ↔ url ∈ seen₂ := hinv url (by simp [hp])
      simp only [extractLoop, extractSpecLoop, hp]
      by_cases hseen : url ∈ seen₁
      · simp only [hseen, hmem.mp hseen, if_true]
        exact ih seen₁ seen₂ hinv
      · have hseen₂ : url ∉ seen₂ := fun h => hseen (hmem.mpr h)
        simp only [hseen, hseen₂, if_false]
        refine congrArg _ (ih (url :: seen₁) (url :: seen₂) (fun u hu => ?_))
        simp only [List.mem_cons]
        rcases eq_or_ne u url with rfl | hne
        · simp
        · simp [hne, hinv u hu]

theorem extractLoop_urls_nodup (parse : String → Option String)
    (ms : List (String × String)) (seen : List String) :
    ((extractLoop parse ms seen).map ResearchSource.url).Nodup ∧
      ∀ r ∈ extractLoop parse ms seen, r.url ∉ seen := by
  induction ms generalizing seen with
  | nil => simp [extractLoop]
  | cons m ms ih =>
    obtain ⟨title, url⟩ := m
    by_cases hseen : url ∈ seen
    · simp only [extractLoop, hseen, if_true]
      refine ⟨(ih seen).1, fun r hr => (ih seen).2 r hr⟩
    · simp only [extractLoop, hseen, if_false]
      rcases hp : parse url with _ | host
      · refine ⟨(ih (url :: seen)).1, fun r hr => ?_⟩
        intro habs
        exact (ih (url :: seen)).2 r hr (List.mem_cons_of_mem _ habs)
      · constructor
        · refine List.nodup_cons.mpr ⟨?_, (ih (url :: seen)).1⟩
          intro habs
          obtain ⟨r, hr, hru⟩ := List.mem_map.mp habs
          exact (ih (url :: seen)).2 r hr (by simp [hru])
        · intro r hr
          rcases List.mem_cons.mp hr with rfl | hr
          · exact hseen
          · intro habs
            exact (ih (url :: seen)).2 r hr (List.mem_cons_of_mem _ habs)

theorem extractLoop_domain (parse : String → Option String)
    (ms : List (String × String)) (seen : List String) :
    ∀ r ∈ extractLoop parse ms seen, parse r.url = some r.domain := by
  induction ms generalizing seen with
  | nil => simp [extractLoop]
  | cons m ms ih =>
    obtain ⟨title, url⟩ := m
    by_cases hseen : url ∈ seen
    · simp only [extractLoop, hseen, if_true]
      exact ih seen
    · simp only [extractLoop, hseen, if_false]
      rcases hp : parse url with _ | host
      · exact ih (url :: seen)
      · intro r hr
        rcases List.mem_cons.mp hr with rfl | hr
        · exact hp
        · exact ih (url :: seen) r hr

/-! ## Orchestrator (`POST` in `app/(chat)/api/research/route.ts`)

The `ai`-package transport (`createUIMessageStream`) is an external
collaborator; per the spec's channel contract it delivers writes in program
order, `dataStream.merge` splices the whole synthesis token stream into the
channel at the merge point, and `onFinish` (message persistence) runs only
when the stream finished successfully. -/

/-- One event written to the channel by the orchestrator.  `status`,
`queryRewritten`, `searchResults`, `sources`, `synthesisStart` and `complete`
stand for the `data-research-*` writes in `route.ts`; `token` is one text
delta of the merged synthesis stream. -/
inductive ResearchEvent where
  | status (s : String)
  | queryRewritten (q : String)
  | searchResults (r : String)
  | sources (l : List ResearchSource)
  | synthesisStart
  | complete
  | token (t : String)
deriving DecidableEq, Repr

/-- Is this event a synthesis token delta (as opposed to a discrete event)? -/
def ResearchEvent.isToken : ResearchEvent → Bool
  | .token _ => true
  | _ => false

/-- Outcomes of the three stage invocations for one run: the text produced by
`generateText` for the rewrite and search stages, the token deltas produced
by `streamText` for the synthesis stage — or the error each call raises. -/
structure StageEnv where
  rewrite : Except String String
  search : Except String String
  synthesis : Except String (List String)

/-- Observable result of one `execute` run: the events written to the channel
in order, the error re-thrown to the transport (if any), and which of the
later stage invocations were reached. -/
structure PipelineRun where
  events : List ResearchEvent
  thrown : Option String
  searchInvoked : Bool
  synthesisInvoked : Bool
deriving DecidableEq, Repr

/-- The `execute` body of `createUIMessageStream` in `route.ts`: write
`status rewriting-query`, invoke the rewrite; write the rewritten query,
`status searching`, invoke the search; write the raw results and the
extracted sources; write `status synthesizing` and `synthesis-start`, invoke
the synthesis stream and merge its tokens; write `status complete` then
`complete`.  The surrounding `catch` writes `status error` and re-throws. -/
def runPipeline (env : StageEnv) : PipelineRun :=
  match env.rewrite with
  | .error e =>
    { events := [.status "rewriting-query", .status "error"]
      thrown := some e
      searchInvoked := false
      synthesisInvoked := false }
  | .ok rewrittenQuery =>
    match env.search with
    | .error e =>
      { events := [.status "rewriting-query", .queryRewritten rewrittenQuery,
            .status "searching", .status "error"]
        thrown := some e
        searchInvoked := true
        synthesisInvoked := false }
    | .ok searchContent =>
      let sources := extractSourcesFromContent urlHostname searchContent
      match env.synthesis with
      | .error e =>
        { events := [.status "rewriting-query", .queryRewritten rewrittenQuery,
              .status "searching", .searchResults searchContent,
              .sources sources, .status "synthesizing", .synthesisStart,
              .status "error"]
          thrown := some e
          searchInvoked := true
          synthesisInvoked := true }
      | .ok tokens =>
        { events := [.status "rewriting-query", .queryRewritten rewrittenQuery,
              .status "searching", .searchResults searchContent,
              .sources sources, .status "synthesizing", .synthesisStart] ++
            tokens.map ResearchEvent.token ++
            [.status "complete", .complete]
          thrown := none
          searchInvoked := true
          synthesisInvoked := true }

/-- Modelled from the spec: the transport calls `onFinish` — and hence
`saveMessages` — only once the stream has finished successfully; a run that
threw never reaches persistence. -/
def persistenceInvoked (r : PipelineRun) : Bool :=
  r.thrown.isNone

/-! ## Request validation and authentication -/

/-- Is `c` a hexadecimal digit (either case)? -/
def isHexDigit (c : Char) : Bool :=
  c.isDigit || ('a' ≤ c && c ≤ 'f') || ('A' ≤ c && c ≤ 'F')

/-- Split a character list on dashes; the result always has one group per
dash-separated segment (a trailing/leading dash yields an empty group). -/
def splitOnDash (cs : List Char) : List (List Char) :=
  match cs with
  | [] => [[]]
  | c :: rest =>
    match splitOnDash rest with
    | [] => [[]]
    | g :: gs => if c = '-' then [] :: g :: gs else (c :: g) :: gs

/-- `z.string().uuid()`: five groups of hex digits of lengths 8-4-4-4-12
separated by dashes. -/
def isUuid (s : String) : Bool :=
  let parts := splitOnDash s.data
  parts.map List.length == [8, 4, 4, 4, 12] &&
    parts.all (fun p => p.all isHexDigit)

/-- A parsed research request (`ResearchRequest` in `lib/ai/research/types.ts`). -/
structure ResearchRequest where
  id : String
  query : String
  chatId : String
deriving DecidableEq, Repr

/-- The JSON body of an incoming request, abstracted to what the schema
inspects: either `request.json()` failed / the value is not an object
(`malformed`), or an object whose `id`, `query`, `chatId` members are the
given strings (`none` = absent or not a string). -/
inductive RequestBody where
  | malformed
  | fields (id query chatId : Option String)
deriving DecidableEq, Repr

/-- `researchRequestSchema.parse` of `lib/ai/research/types.ts`:
`z.object(\x7b id: z.string().uuid(), query: z.string().min(1).max(2000),
chatId: z.string().uuid() \x7d)`, with `none` standing for the thrown
`ZodError` (caught together with JSON errors in `POST`). -/
def researchRequestParse : RequestBody → Option ResearchRequest
  | .malformed => none
  | .fields i q c =>
    match i, q, c with
    | some i, some q, some c =>
      if isUuid i && (1 ≤ q.length && q.length ≤ 2000) && isUuid c then
        some ⟨i, q, c⟩
      else none
    | _, _, _ => none

/-- The `auth()` result: `session?.user` is what `POST` checks. -/
structure Session where
  user : Option Unit
deriving DecidableEq, Repr

/-- Observable outcome of one `POST /research` call: HTTP status and
`ChatSDKError` code of the early responses, whether `auth()` was consulted,
whether the event stream was opened, and the pipeline run (if reached). -/
structure PostResult where
  httpStatus : Nat
  errorCode : Option String
  authChecked : Bool
  streamOpened : Bool
  run : Option PipelineRun
deriving DecidableEq, Repr

/-- `POST` of `route.ts`: parse the body against the schema (every parse or
JSON failure is caught and answered with
`ChatSDKError("bad_request:api")`, HTTP 400); then check `auth()` and answer
`ChatSDKError("unauthorized:chat")`, HTTP 401, when there is no session
user; otherwise open the UI message stream and run the pipeline.  The 400
and 401 numeric codes are modelled from the spec (`ChatSDKError.toResponse`
is outside this repository's sources). -/
def POST (body : RequestBody) (session : Option Session) (env : StageEnv) :
    PostResult :=
  match researchRequestParse body with
  | none =>
    { httpStatus := 400
      errorCode := some "bad_request:api"
      authChecked := false
      streamOpened := false
      run := none }
  | some _req =>
    match session with
    | none =>
      { httpStatus := 401
        errorCode := some "unauthorized:chat"
        authChecked := true
        streamOpened := false
        run := none }
    | some s =>
      match s.user with
      | none =>
        { httpStatus := 401
          errorCode := some "unauthorized:chat"
          authChecked := true
          streamOpened := false
          run := none }
      | some _ =>
        { httpStatus := 200
          errorCode := none
          authChecked := true
          streamOpened := true
          run := some (runPipeline env) }

/-- C2: `extractSourcesFromContent` refines the spec's reference algorithm for
every URL parser: same records, in first-seen order, deduplicated by url
(first occurrence wins, never a second record for a duplicate url), each
record's domain being the hostname the parser returns for its url; parse
failures skip only the failing match.  Totality (the function never raises)
holds by construction.  Concretely, the empty string and a `javascript:`
link extract nothing, and `[ok](http://a.b)` yields domain `a.b`. -/
theorem extractSources_meets_spec (parse : String → Option String) :
    (∀ content, extractSourcesFromContent parse content =
        extractSourcesSpec parse content) ∧
    (∀ content,
        ((extractSourcesFromContent parse content).map ResearchSource.url).Nodup) ∧
    (∀ content, ∀ r ∈ extractSourcesFromContent parse content,
        parse r.url = some r.domain) ∧
    extractSourcesFromContent urlHostname "" = [] ∧
    extractSourcesFromContent urlHostname "[not a link](javascript:alert(1))" = [] ∧
    extractSourcesFromContent urlHostname "[ok](http://a.b)" =
      [⟨"ok", "http://a.b", "a.b"⟩] := by
  refine ⟨fun content => ?_, fun content => ?_, fun content => ?_,
    by decide, by decide, by decide⟩
  · exact extractLoop_eq_specLoop parse (scanLinks content) [] [] (by simp)
  · exact (extractLoop_urls_nodup parse (scanLinks content) []).1
  · exact extractLoop_domain parse (scanLinks content) []

/-- Witness for C2: the domain conjunct applied to the concrete extraction
from `[ok](http://a.b)`. -/
theorem extractSources_meets_spec_witness :
    urlHostname "http://a.b" = some "a.b" :=
  (extractSources_meets_spec urlHostname).2.2.1 "[ok](http://a.b)"
    ⟨"ok", "http://a.b", "a.b"⟩ (by decide)

/-- C5: for every state reachable from `initialState` by any event sequence,
`isActive = true` iff at least one status event has been applied, the
last-applied status event's payload is neither `complete` nor `error`, and no
complete event has been applied since — equivalently, the most recent
status-or-complete event is a status event with a non-terminal payload
(`isActiveSpec`). -/
theorem isActive_invariant (es : List Delta) :
    (es.foldl handleResearchData initialState).isActive = isActiveSpec es := by
  rw [foldl_handle_isActive, isActiveSpec]
  rcases es.reverse.find? isRelevant with _ | d <;> rfl

/-- C7: the reducer is total over event types — an event whose `type` is none
of the five recognized research event types leaves the state unchanged. -/
theorem handle_unrecognized_noop (s : ResearchState) (d : Delta)
    (h1 : d.type ≠ "data-research-status")
    (h2 : d.type ≠ "data-research-query-rewritten")
    (h3 : d.type ≠ "data-research-search-results")
    (h4 : d.type ≠ "data-research-sources")
    (h5 : d.type ≠ "data-research-complete") :
    handleResearchData s d = s := by
  unfold handleResearchData
  simp [h1, h2, h3, h4, h5]

/-- Witness for C7 at a concrete unrecognized event. -/
theorem handle_unrecognized_noop_witness :
    handleResearchData initialState ⟨"data-weather-update", .null⟩ = initialState :=
  handle_unrecognized_noop initialState ⟨"data-weather-update", .null⟩
    (by decide) (by decide) (by decide) (by decide) (by decide)

/-- C8: applying `resetResearch` after any sequence of events returns exactly
the initial state, regardless of prior history. -/
theorem reset_after_any_history (es : List Delta) :
    resetResearch (es.foldl handleResearchData initialState) = initialState := rfl

/-- C10: the reducer does not enforce terminality — from any state (including
one whose status is terminal), a status event carrying a value other than
`complete`/`error` overwrites `status` and sets `isActive` back to `true`;
the new `isActive` depends only on the incoming payload, never on the prior
state. -/
theorem status_not_terminal_reactivates (s : ResearchState) (v : String)
    (hc : v ≠ "complete") (he : v ≠ "error") :
    handleResearchData s ⟨"data-research-status", .str v⟩ =
      { s with status := some (.str v), isActive := true } := by
  unfold handleResearchData
  simp [dataEqLit, hc, he]

/-- Witness for C10: a state already in the terminal `complete` phase is
reactivated by a `searching` status event. -/
theorem status_not_terminal_reactivates_witness :
    handleResearchData
        { initialState with status := some (.str "complete"), isActive := false }
        ⟨"data-research-status", .str "searching"⟩ =
      { initialState with status := some (.str "searching"), isActive := true } :=
  status_not_terminal_reactivates
    { initialState with status := some (.str "complete"), isActive := false }
    "searching" (by decide) (by decide)

/-- C1: on a successful run (all three stage invocations succeed, the
synthesis stream produces at least one token), the discrete events the
orchestrator writes before any synthesis token are exactly
`status rewriting-query`, `query-rewritten`, `status searching`,
`search-results`, `sources`, `status synthesizing`, `synthesis-start`, in
that order, with no interleaving and no omissions. -/
theorem pre_token_event_order (env : StageEnv) (rq sc : String)
    (toks : List String) (hr : env.rewrite = .ok rq) (hs : env.search = .ok sc)
    (ht : env.synthesis = .ok toks) (hne : toks ≠ []) :
    (runPipeline env).events.takeWhile (fun e => !e.isToken) =
      [.status "rewriting-query", .queryRewritten rq, .status "searching",
       .searchResults sc, .sources (extractSourcesFromContent urlHostname sc),
       .status "synthesizing", .synthesisStart] := by
  obtain ⟨t, ts, rfl⟩ := List.exists_cons_of_ne_nil hne
  obtain ⟨r, s, y⟩ := env
  cases hr
  cases hs
  cases ht
  simp [runPipeline, List.takeWhile, ResearchEvent.isToken]

/-- Witness for C1 at a concrete successful environment. -/
theorem pre_token_event_order_witness :
    (runPipeline ⟨.ok "q2", .ok "see [x](http://a.b)", .ok ["tok"]⟩).events.takeWhile
        (fun e => !e.isToken) =
      [.status "rewriting-query", .queryRewritten "q2", .status "searching",
       .searchResults "see [x](http://a.b)",
       .sources (extractSourcesFromContent urlHostname "see [x](http://a.b)"),
       .status "synthesizing", .synthesisStart] :=
  pre_token_event_order ⟨.ok "q2", .ok "see [x](http://a.b)", .ok ["tok"]⟩
    "q2" "see [x](http://a.b)" ["tok"] rfl rfl rfl (by decide)

/-- C3: on a successful run the channel is exactly the discrete stage-1/2
prefix, then the synthesis tokens contiguously (no discrete event
interleaves with them), then the terminal `status complete`/`complete` pair
after the last token — so the client observes the terminal pair only once
every token has been delivered. -/
theorem tokens_before_terminal_pair (env : StageEnv) (rq sc : String)
    (toks : List String) (hr : env.rewrite = .ok rq) (hs : env.search = .ok sc)
    (ht : env.synthesis = .ok toks) :
    (runPipeline env).events =
      ([.status "rewriting-query", .queryRewritten rq, .status "searching",
        .searchResults sc, .sources (extractSourcesFromContent urlHostname sc),
        .status "synthesizing", .synthesisStart] ++
       toks.map ResearchEvent.token) ++ [.status "complete", .complete] ∧
    ∀ t : String, ResearchEvent.token t ∈ (runPipeline env).events →
      t ∈ toks := by
  obtain ⟨r, s, y⟩ := env
  cases hr
  cases hs
  cases ht
  constructor
  · simp [runPipeline]
  · intro t ht
    simp [runPipeline] at ht
    exact ht

/-- Witness for C3 at a concrete successful environment. -/
theorem tokens_before_terminal_pair_witness :
    (runPipeline ⟨.ok "q2", .ok "sc", .ok ["t1", "t2"]⟩).events =
      ([.status "rewriting-query", .queryRewritten "q2", .status "searching",
        .searchResults "sc", .sources (extractSourcesFromContent urlHostname "sc"),
        .status "synthesizing", .synthesisStart] ++
       (["t1", "t2"].map ResearchEvent.token)) ++ [.status "complete", .complete] ∧
    ∀ t : String,
      ResearchEvent.token t ∈ (runPipeline ⟨.ok "q2", .ok "sc", .ok ["t1", "t2"]⟩).events →
      t ∈ ["t1", "t2"] :=
  tokens_before_terminal_pair ⟨.ok "q2", .ok "sc", .ok ["t1", "t2"]⟩
    "q2" "sc" ["t1", "t2"] rfl rfl rfl

/-- C4: if any stage invocation raises, the orchestrator writes
`status error` as the very last event and re-throws; no `complete` event and
no `status complete` is ever written, the stages after the failing one are
never invoked, and message persistence never runs for that run. -/
theorem stage_error_aborts_run (env : StageEnv)
    (h : env.rewrite.isOk = false ∨ env.search.isOk = false ∨
      env.synthesis.isOk = false) :
    ((runPipeline env).thrown).isSome = true ∧
    (runPipeline env).events.getLast? = some (.status "error") ∧
    ResearchEvent.complete ∉ (runPipeline env).events ∧
    ResearchEvent.status "complete" ∉ (runPipeline env).events ∧
    persistenceInvoked (runPipeline env) = false ∧
    (env.rewrite.isOk = false →
      (runPipeline env).searchInvoked = false ∧
        (runPipeline env).synthesisInvoked = false) ∧
    (env.search.isOk = false → (runPipeline env).synthesisInvoked = false) := by
  obtain ⟨r, s, y⟩ := env
  rcases r with e | rq
  · simp [runPipeline, persistenceInvoked, Except.isOk, Except.toBool]
  · rcases s with e | sc
    · simp [runPipeline, persistenceInvoked, Except.isOk, Except.toBool]
    · rcases y with e | toks
      · simp [runPipeline, persistenceInvoked, Except.isOk, Except.toBool]
      · simp [Except.isOk, Except.toBool] at h

/-- Witness for C4: a run whose search stage raises. -/
theorem stage_error_aborts_run_witness :
    ((runPipeline ⟨.ok "q2", .error "boom", .ok []⟩).thrown).isSome = true ∧
    (runPipeline ⟨.ok "q2", .error "boom", .ok []⟩).events.getLast? =
      some (.status "error") ∧
    ResearchEvent.complete ∉ (runPipeline ⟨.ok "q2", .error "boom", .ok []⟩).events ∧
    ResearchEvent.status "complete" ∉
      (runPipeline ⟨.ok "q2", .error "boom", .ok []⟩).events ∧
    persistenceInvoked (runPipeline ⟨.ok "q2", .error "boom", .ok []⟩) = false ∧
    ((Except.ok "q2" : Except String String).isOk = false →
      (runPipeline ⟨.ok "q2", .error "boom", .ok []⟩).searchInvoked = false ∧
        (runPipeline ⟨.ok "q2", .error "boom", .ok []⟩).synthesisInvoked = false) ∧
    ((Except.error "boom" : Except String String).isOk = false →
      (runPipeline ⟨.ok "q2", .error "boom", .ok []⟩).synthesisInvoked = false) :=
  stage_error_aborts_run ⟨.ok "q2", .error "boom", .ok []⟩ (by decide)

/-- C6: a body the schema rejects is answered with HTTP 400 and the
`bad_request:api` error body, with no pipeline run and no stream opened; an
authenticated-session miss is answered with HTTP 401 and `unauthorized:chat`,
again with no pipeline run. -/
theorem request_gatekeeping :
    (∀ body session env, researchRequestParse body = none →
        POST body session env =
          ⟨400, some "bad_request:api", false, false, none⟩) ∧
    (∀ body session env req, researchRequestParse body = some req →
        session.bind Session.user = none →
        POST body session env =
          ⟨401, some "unauthorized:chat", true, false, none⟩) := by
  constructor
  · intro body session env h
    unfold POST
    rw [h]
  · intro body session env req h hu
    rcases session with _ | s
    · unfold POST
      rw [h]
    · rw [Option.some_bind] at hu
      unfold POST
      simp [h, hu]

/-- Witness for C6: an invalid body (non-UUID identifiers) from an
authenticated caller gets the 400 response. -/
theorem request_gatekeeping_witness :
    POST (.fields (some "nope") (some "hello") (some "nope"))
        (some ⟨some ()⟩) ⟨.ok "a", .ok "b", .ok []⟩ =
      ⟨400, some "bad_request:api", false, false, none⟩ :=
  request_gatekeeping.1 (.fields (some "nope") (some "hello") (some "nope"))
    (some ⟨some ()⟩) ⟨.ok "a", .ok "b", .ok []⟩ (by decide)

/-- C9: validation runs before authentication — an invalid body is answered
with 400 without the session ever being consulted, so the result does not
depend on the session at all, and an unauthenticated caller with an invalid
body receives 400 rather than 401. -/
theorem validation_before_auth (body : RequestBody) (session : Option Session)
    (env : StageEnv) (h : researchRequestParse body = none) :
    (POST body session env).httpStatus = 400 ∧
    (POST body session env).authChecked = false ∧
    POST body session env = POST body none env := by
  unfold POST
  rw [h]
  exact ⟨rfl, rfl, rfl⟩

/-- Witness for C9: an unauthenticated caller sending a malformed body gets
400, not 401. -/
theorem validation_before_auth_witness :
    (POST .malformed none ⟨.ok "a", .ok "b", .ok []⟩).httpStatus = 400 ∧
    (POST .malformed none ⟨.ok "a", .ok "b", .ok []⟩).authChecked = false ∧
    POST .malformed none ⟨.ok "a", .ok "b", .ok []⟩ =
      POST .malformed none ⟨.ok "a", .ok "b", .ok []⟩ :=
  validation_before_auth .malformed none ⟨.ok "a", .ok "b", .ok []⟩ (by decide)

end Research
